import Mathlib

/-!
# Verification of gerbera's `Timer` (src/src/util/timer.cc)

Shallow embedding of the subscription/wake/notify engine: the subscriber
registry (`addTimerSubscriber`, `removeTimerSubscriber`), the deadline
computation (`getNextNotifyTime`), the worker loop (`triggerWait` /
`notify`), and the shutdown protocol.

Times are modelled as absolute milliseconds (`Int`); intervals are `Nat`
(the C++ `unsigned int notifyInterval`).  Observers and parameters are
identified by `Nat` tags: the C++ code only ever compares them by
pointer identity and calls `notify(parameter)` on them, so the identity
tag is a faithful abstraction.  Throwing code is modelled as returning
the (unchanged-up-to-the-throw-point) state together with an error;
since every `throw` in the source happens before any mutation, an error
outcome always carries the caller's original state.
-/

/-- A registry entry.  Mirrors `TimerSubscriberElement` (declared in
`timer.h`): observer identity, interval, opaque parameter, one-shot
flag, and the absolute deadline `nextNotify`. -/
structure Entry where
  subscriber : Nat
  notifyInterval : Nat
  parameter : Nat
  once : Bool
  nextNotify : Int
  deriving Repr, DecidableEq

/-- Errors of the registry API.  The C++ code raises `std::runtime_error`
with three distinct messages; the spec names them `InvalidIntervalError`,
`DuplicateSubscriptionError` and `NotFoundError`. -/
inductive TimerError where
  | invalidInterval
  | duplicateSubscription
  | notFound
  deriving Repr, DecidableEq

/-- The shared state of a `Timer`: the subscriber registry, the shutdown
flag, and a counter of wake-condition signals (each `signal()` /
`cond.notify_all()` call increments it, so "signals the Wake Protocol"
is observable in the model). -/
structure TimerState where
  subscribers : List Entry
  shutdownFlag : Bool
  signals : Nat
  deriving Repr, DecidableEq

/-- Modelled from the spec: `getDeltaMillis(first, second)` lives in the
tools unit, which is not under `src/`; per the spec's step 4 ("Compute
the remaining wait as `deadline - now`", computed in the source as
`getDeltaMillis(&now, timeout)`) it returns `second - first` in
milliseconds. -/
def getDeltaMillis (first second : Int) : Int :=
  second - first

/-- Modelled from the spec: `TimerSubscriberElement::operator==` is
declared in `timer.h`, which is not under `src/`; per the spec, entries
are compared "by `(observer, parameter)` identity only — interval/once
flag is irrelevant for matching". -/
def Entry.sameIdentity (a b : Entry) : Bool :=
  a.subscriber == b.subscriber && a.parameter == b.parameter

/-- Identity match against a bare `(observer, parameter)` pair, as used
by `removeTimerSubscriber`, which builds a probe element carrying only
the identity. -/
def matchesIdentity (obs param : Nat) (e : Entry) : Bool :=
  e.subscriber == obs && e.parameter == param

/-- Modelled from the spec: `updateNextNotify` is declared in `timer.h`,
not under `src/`; per the spec it recomputes the deadline to
`now + intervalMillis`. -/
def Entry.updateNextNotify (now : Int) (e : Entry) : Entry :=
  { e with nextNotify := now + (e.notifyInterval : Int) }

/-- `Timer::addTimerSubscriber`: reject a zero interval, then (under the
registry mutex) reject an identity duplicate, else append the new entry
(its deadline initialised to `now + interval`, per the spec's
registration contract) and signal the wake condition.  An error outcome
leaves the state untouched, exactly as the C++ `throw`s happen before
the `push_back`. -/
def addTimerSubscriber (st : TimerState) (timerSubscriber : Nat)
    (notifyInterval : Nat) (parameter : Nat) (once : Bool) (now : Int) :
    TimerState × Option TimerError :=
  if notifyInterval = 0 then
    (st, some .invalidInterval)
  else
    let element : Entry :=
      { subscriber := timerSubscriber, notifyInterval := notifyInterval,
        parameter := parameter, once := once,
        nextNotify := now + (notifyInterval : Int) }
    if st.subscribers.any (fun s => Entry.sameIdentity s element) then
      (st, some .duplicateSubscription)
    else
      ({ st with subscribers := st.subscribers ++ [element],
                 signals := st.signals + 1 }, none)

/-- `std::find` + `erase`: drop the first entry matching the identity,
keep everything else. -/
def removeFirstMatch (obs param : Nat) : List Entry → List Entry
  | [] => []
  | e :: rest =>
    if matchesIdentity obs param e then rest
    else e :: removeFirstMatch obs param rest

/-- `Timer::removeTimerSubscriber`: find the first entry with the given
`(observer, parameter)` identity; if found, erase it and signal the wake
condition; otherwise fail with `NotFoundError` unless `dontFail`. -/
def removeTimerSubscriber (st : TimerState) (timerSubscriber parameter : Nat)
    (dontFail : Bool) : TimerState × Option TimerError :=
  if st.subscribers.any (matchesIdentity timerSubscriber parameter) then
    ({ st with
        subscribers := removeFirstMatch timerSubscriber parameter st.subscribers,
        signals := st.signals + 1 }, none)
  else if !dontFail then
    (st, some .notFound)
  else
    (st, none)

/-- The scan of `Timer::notify` (lines 139–157): walk the registry in
order; an entry whose `wait = getDeltaMillis(now, nextNotify) ≤ 0` is
copied into the firing batch, then erased if one-shot or rescheduled via
`updateNextNotify` otherwise; entries not yet due are kept unchanged.
Returns `(batch, remaining registry)`. -/
def notifyScan (now : Int) : List Entry → List Entry × List Entry
  | [] => ([], [])
  | e :: rest =>
    let scanned := notifyScan now rest
    if getDeltaMillis now e.nextNotify ≤ 0 then
      if e.once then
        (e :: scanned.1, scanned.2)
      else
        (e :: scanned.1, Entry.updateNextNotify now e :: scanned.2)
    else
      (scanned.1, e :: scanned.2)

/-- `Timer::notify` as a state transformer: perform the scan under the
registry mutex, then (after unlocking) invoke `notify(parameter)` on
each batched entry in collection order.  The returned list records the
invocations as `(observer, parameter)` pairs in invocation order. -/
def notifyPass (st : TimerState) (now : Int) : TimerState × List (Nat × Nat) :=
  let scanned := notifyScan now st.subscribers
  ({ st with subscribers := scanned.2 },
   scanned.1.map fun e => (e.subscriber, e.parameter))

/-- `Timer::getNextNotifyTime`: linear scan keeping the current best
deadline, replacing it when `getDeltaMillis(nextTime, nextNotify) < 0`,
i.e. when the candidate is strictly earlier.  `none` corresponds to the
`nullptr` result on an empty registry. -/
def getNextNotifyTime (subs : List Entry) : Option Int :=
  subs.foldl
    (fun nextTime s =>
      match nextTime with
      | none => some s.nextNotify
      | some t =>
        if getDeltaMillis t s.nextNotify < 0 then some s.nextNotify
        else some t)
    none

/-- What the worker decides to do at the top of one `triggerWait`
iteration. -/
inductive SleepDecision where
  | exitLoop
  | sleepIndefinitely
  | sleepFor (ms : Int)
  | fireImmediately
  deriving Repr, DecidableEq

/-- The decision logic at the top of the `triggerWait` loop
(lines 104–127): exit on shutdown; block indefinitely when the registry
is empty; otherwise compute `wait = getDeltaMillis(now, timeout)` from
the minimal deadline and sleep for exactly `wait` when positive, else
fall through to the notify pass. -/
def workerSleepDecision (st : TimerState) (now : Int) : SleepDecision :=
  if st.shutdownFlag then .exitLoop
  else if st.subscribers.isEmpty then .sleepIndefinitely
  else
    match getNextNotifyTime st.subscribers with
    | none => .sleepIndefinitely
    | some timeout =>
      if 0 < getDeltaMillis now timeout then .sleepFor (getDeltaMillis now timeout)
      else .fireImmediately

/-- Outcome of one full `triggerWait` loop iteration. -/
inductive IterResult where
  | exit
  | idle
  | interrupted
  | fired
  deriving Repr, DecidableEq

/-- One iteration of the `triggerWait` loop.  `wokenEarly` tells whether
a bounded sleep was ended by a signal (`cv_status ≠ timeout`) rather
than by its timeout; `fireTime` is the clock value when the notify pass
runs (the source re-reads the clock inside `notify`).  An interrupted
sleep `continue`s with no notify pass; a genuine timeout (and the
already-due case) runs `notify()`.  Returns the iteration outcome, the
successor state, and the `(observer, parameter)` invocations made. -/
def triggerWaitIteration (st : TimerState) (now fireTime : Int)
    (wokenEarly : Bool) : IterResult × TimerState × List (Nat × Nat) :=
  match workerSleepDecision st now with
  | .exitLoop => (.exit, st, [])
  | .sleepIndefinitely => (.idle, st, [])
  | .sleepFor _ =>
    if wokenEarly then (.interrupted, st, [])
    else
      let fired := notifyPass st fireTime
      (.fired, fired.1, fired.2)
  | .fireImmediately =>
    let fired := notifyPass st fireTime
    (.fired, fired.1, fired.2)

/-- `Timer::shutdown` (lines 179–184): set the shutdown flag and signal
the wake condition (`cond.notify_all()`); the `pthread_join` then blocks
the caller until the worker thread has exited. -/
def shutdown (st : TimerState) : TimerState :=
  { st with shutdownFlag := true, signals := st.signals + 1 }

/-- At most one entry per `(observer, parameter)` identity. -/
def uniqIdents (l : List Entry) : Prop :=
  l.Pairwise fun a b => ¬(a.subscriber = b.subscriber ∧ a.parameter = b.parameter)

instance uniqIdentsDecidable (l : List Entry) : Decidable (uniqIdents l) := by
  unfold uniqIdents
  infer_instance

/-! ## Helper lemmas -/

theorem notifyScan_fst (now : Int) (l : List Entry) :
    (notifyScan now l).1 = l.filter fun e => decide (e.nextNotify ≤ now) := by
  induction l with
  | nil => rfl
  | cons e rest ih =>
    by_cases h : e.nextNotify ≤ now
    · by_cases ho : e.once = true <;>
        simp [notifyScan, getDeltaMillis, sub_nonpos, h, ho, List.filter_cons, ih]
    · simp [notifyScan, getDeltaMillis, sub_nonpos, h, List.filter_cons, ih]

theorem notifyScan_snd (now : Int) (l : List Entry) :
    (notifyScan now l).2 = l.filterMap fun e =>
      if e.nextNotify ≤ now then
        if e.once then none else some (Entry.updateNextNotify now e)
      else some e := by
  induction l with
  | nil => rfl
  | cons e rest ih =>
    by_cases h : e.nextNotify ≤ now
    · by_cases ho : e.once = true <;>
        simp [notifyScan, getDeltaMillis, sub_nonpos, h, ho, List.filterMap_cons, ih]
    · simp [notifyScan, getDeltaMillis, sub_nonpos, h, List.filterMap_cons, ih]

/-! ## C2 -/

/-- C2: in a notify pass at time `now`, the firing batch is exactly the
subsequence of entries with `nextNotify ≤ now` (in registry order); the
surviving registry keeps not-yet-due entries unchanged, drops one-shot
fired entries, and reschedules repeating fired entries to
`now + intervalMillis`; and the invocations performed are exactly the
batch's `(observer, parameter)` pairs, in collection order, one each. -/
theorem timer_c2_notify_pass (st : TimerState) (now : Int) :
    (notifyScan now st.subscribers).1
        = st.subscribers.filter (fun e => decide (e.nextNotify ≤ now))
  ∧ (notifyScan now st.subscribers).2
        = st.subscribers.filterMap (fun e =>
            if e.nextNotify ≤ now then
              if e.once then none else some (Entry.updateNextNotify now e)
            else some e)
  ∧ (notifyPass st now).2
        = (st.subscribers.filter (fun e => decide (e.nextNotify ≤ now))).map
            (fun e => (e.subscriber, e.parameter)) := by
  refine ⟨notifyScan_fst now st.subscribers, notifyScan_snd now st.subscribers, ?_⟩
  simp [notifyPass, notifyScan_fst]

/-! ## C3 -/

/-- C3: registering with `intervalMillis = 0` always fails with
`InvalidIntervalError`, synchronously, and leaves the registry (indeed
the whole timer state) unchanged. -/
theorem timer_c3_zero_interval (st : TimerState) (obs param : Nat)
    (once : Bool) (now : Int) :
    addTimerSubscriber st obs 0 param once now
      = (st, some TimerError.invalidInterval) := by
  simp [addTimerSubscriber]

/-! ## C4 -/

/-- C4: a second registration with an `(observer, parameter)` identity
already present in the registry fails with `DuplicateSubscriptionError`
and leaves the state unchanged, so the first registration's entry stays
intact.  (`intervalMillis` must be non-zero, as the API requires: a zero
interval is rejected as `InvalidIntervalError` before the duplicate
check.) -/
theorem timer_c4_duplicate (st : TimerState) (obs interval param : Nat)
    (once : Bool) (now : Int) (hi : interval ≠ 0)
    (hdup : ∃ e ∈ st.subscribers, e.subscriber = obs ∧ e.parameter = param) :
    addTimerSubscriber st obs interval param once now
      = (st, some TimerError.duplicateSubscription) := by
  obtain ⟨e, he, h1, h2⟩ := hdup
  have hany : st.subscribers.any (fun s => Entry.sameIdentity s
      { subscriber := obs, notifyInterval := interval, parameter := param,
        once := once, nextNotify := now + (interval : Int) }) = true := by
    rw [List.any_eq_true]
    exact ⟨e, he, by simp [Entry.sameIdentity, h1, h2]⟩
  simp [addTimerSubscriber, hi, hany]

theorem timer_c4_witness :
    addTimerSubscriber ⟨[⟨1, 5, 2, false, 5⟩], false, 1⟩ 1 7 2 true 10
      = (⟨[⟨1, 5, 2, false, 5⟩], false, 1⟩, some TimerError.duplicateSubscription) :=
  timer_c4_duplicate _ 1 7 2 true 10 (by decide)
    ⟨⟨1, 5, 2, false, 5⟩, by simp, rfl, rfl⟩

/-! ## C10 -/

/-- The notify pass with an arbitrary registry-mutating effect running
between invocations: after the scan (under the registry mutex) installs
the surviving registry, the batch — a list of copied elements, detached
from the registry — is walked in order; each step invokes the observer
and then lets `effect` mutate the whole timer state arbitrarily (this
models a concurrent caller, or the callback itself, registering or
unregistering entries, including ones still pending in the batch). -/
def notifyWithEffects (st : TimerState) (now : Int)
    (effect : Nat → Nat → TimerState → TimerState) :
    TimerState × List (Nat × Nat) :=
  let scanned := notifyScan now st.subscribers
  (scanned.1).foldl
    (fun acc e =>
      (effect e.subscriber e.parameter acc.1,
       acc.2 ++ [(e.subscriber, e.parameter)]))
    ({ st with subscribers := scanned.2 }, [])

theorem notifyWithEffects_foldl (effect : Nat → Nat → TimerState → TimerState)
    (l : List Entry) :
    ∀ (s : TimerState) (acc : List (Nat × Nat)),
      (l.foldl
        (fun p e =>
          (effect e.subscriber e.parameter p.1,
           p.2 ++ [(e.subscriber, e.parameter)])) (s, acc)).2
        = acc ++ l.map fun e => (e.subscriber, e.parameter) := by
  induction l with
  | nil => intro s acc; simp
  | cons e rest ih => intro s acc; simp [List.foldl_cons, ih]

/-- C10: the firing batch is a snapshot of copies — whatever mutations
the effect function performs on the registry between collection and the
individual invocations (removing the entry just invoked, removing an
entry collected but not yet invoked, emptying the registry entirely),
every collected entry's observer is still invoked, in collection order;
removal after collection never suppresses a collected notification. -/
theorem timer_c10_snapshot (st : TimerState) (now : Int)
    (effect : Nat → Nat → TimerState → TimerState) :
    (notifyWithEffects st now effect).2
      = (notifyScan now st.subscribers).1.map
          (fun e => (e.subscriber, e.parameter)) := by
  unfold notifyWithEffects
  simp [notifyWithEffects_foldl]

/-! ## C5 -/

theorem removeFirstMatch_eq_filter (obs param : Nat) :
    ∀ l : List Entry, uniqIdents l →
      removeFirstMatch obs param l = l.filter fun e => !matchesIdentity obs param e := by
  intro l hu
  induction l with
  | nil => rfl
  | cons e rest ih =>
    simp only [uniqIdents, List.pairwise_cons] at hu
    obtain ⟨hrel, hrest⟩ := hu
    by_cases h : matchesIdentity obs param e
    · have he : e.subscriber = obs ∧ e.parameter = param := by
        simpa [matchesIdentity] using h
      have hnone : ∀ y ∈ rest, (!matchesIdentity obs param y) = true := by
        intro y hy
        have hne := hrel y hy
        simp only [matchesIdentity, Bool.not_eq_true', Bool.and_eq_false_iff,
          beq_eq_false_iff_ne, ne_eq]
        by_contra hc
        push_neg at hc
        exact hne ⟨he.1.trans hc.1.symm, he.2.trans hc.2.symm⟩
      simp only [Bool.not_eq_true'] at hnone
      have hfr : rest.filter (fun y => !matchesIdentity obs param y) = rest := by
        rw [List.filter_eq_self]
        intro y hy
        simp [hnone y hy]
      simp [removeFirstMatch, h, List.filter_cons, hfr]
    · have h' : matchesIdentity obs param e = false := Bool.eq_false_iff.mpr h
      simp [removeFirstMatch, h', List.filter_cons, ih hrest]

/-- C5: `removeTimerSubscriber` matched purely on `(observer, parameter)`
identity: when a matching entry exists in a duplicate-free registry, the
call removes exactly the matching entry (interval and once flag play no
role), signals the wake condition, and succeeds; when no entry matches,
the call fails with `NotFoundError` if `dontFail` is unset and is a
silent no-op leaving the state untouched if it is set. -/
theorem timer_c5_unregister (st : TimerState) (obs param : Nat)
    (dontFail : Bool) (hu : uniqIdents st.subscribers) :
    ((∃ e ∈ st.subscribers, matchesIdentity obs param e = true) →
        removeTimerSubscriber st obs param dontFail
          = ({ st with
                subscribers :=
                  st.subscribers.filter fun e => !matchesIdentity obs param e,
                signals := st.signals + 1 }, none))
  ∧ ((∀ e ∈ st.subscribers, matchesIdentity obs param e = false) →
        removeTimerSubscriber st obs param dontFail
          = (st, if dontFail then none else some TimerError.notFound)) := by
  constructor
  · rintro ⟨e, he, hm⟩
    have hany : st.subscribers.any (matchesIdentity obs param) = true :=
      List.any_eq_true.mpr ⟨e, he, hm⟩
    simp [removeTimerSubscriber, hany, removeFirstMatch_eq_filter obs param _ hu]
  · intro hnone
    have hany : st.subscribers.any (matchesIdentity obs param) = false := by
      rw [List.any_eq_false]
      intro y hy
      simp [hnone y hy]
    cases dontFail <;> simp [removeTimerSubscriber, hany]

theorem timer_c5_witness :
    removeTimerSubscriber ⟨[⟨3, 5, 4, false, 9⟩], false, 0⟩ 3 4 false
      = (⟨[], false, 1⟩, none) := by
  have h := (timer_c5_unregister ⟨[⟨3, 5, 4, false, 9⟩], false, 0⟩ 3 4 false
    (by decide)).1 ⟨⟨3, 5, 4, false, 9⟩, by simp, by decide⟩
  simpa using h

/-! ## C8 -/

theorem removeFirstMatch_sublist (obs param : Nat) :
    ∀ l : List Entry, List.Sublist (removeFirstMatch obs param l) l := by
  intro l
  induction l with
  | nil => simp [removeFirstMatch]
  | cons e rest ih =>
    by_cases h : matchesIdentity obs param e
    · simp only [removeFirstMatch, h, if_true]
      exact (List.sublist_cons_self e rest)
    · simp only [removeFirstMatch, h, if_false]
      exact ih.cons₂ e

theorem notifyScan_snd_mem (now : Int) :
    ∀ l : List Entry, ∀ y ∈ (notifyScan now l).2,
      ∃ x ∈ l, y.subscriber = x.subscriber ∧ y.parameter = x.parameter := by
  intro l
  induction l with
  | nil => intro y hy; simp [notifyScan] at hy
  | cons e rest ih =>
    intro y hy
    unfold notifyScan at hy
    by_cases h : getDeltaMillis now e.nextNotify ≤ 0
    · by_cases ho : e.once
      · simp only [h, if_true, ho] at hy
        obtain ⟨x, hx, hxx⟩ := ih y hy
        exact ⟨x, List.mem_cons_of_mem e hx, hxx⟩
      · simp only [h, if_true, ho, Bool.false_eq_true, if_false,
          List.mem_cons] at hy
        rcases hy with hy | hy
        · exact ⟨e, List.mem_cons_self e rest, by simp [hy, Entry.updateNextNotify]⟩
        · obtain ⟨x, hx, hxx⟩ := ih y hy
          exact ⟨x, List.mem_cons_of_mem e hx, hxx⟩
    · simp only [h, if_false, List.mem_cons] at hy
      rcases hy with hy | hy
      · exact ⟨e, List.mem_cons_self e rest, by simp [hy]⟩
      · obtain ⟨x, hx, hxx⟩ := ih y hy
        exact ⟨x, List.mem_cons_of_mem e hx, hxx⟩

theorem notifyScan_snd_uniq (now : Int) :
    ∀ l : List Entry, uniqIdents l → uniqIdents (notifyScan now l).2 := by
  intro l
  induction l with
  | nil => intro _; simp [notifyScan, uniqIdents]
  | cons e rest ih =>
    intro hu
    simp only [uniqIdents, List.pairwise_cons] at hu
    obtain ⟨hrel, hrest⟩ := hu
    have hkeep : ∀ y ∈ (notifyScan now rest).2,
        ¬(e.subscriber = y.subscriber ∧ e.parameter = y.parameter) := by
      intro y hy hc
      obtain ⟨x, hx, hxs, hxp⟩ := notifyScan_snd_mem now rest y hy
      exact hrel x hx ⟨hc.1.trans hxs, hc.2.trans hxp⟩
    unfold notifyScan
    by_cases h : getDeltaMillis now e.nextNotify ≤ 0
    · by_cases ho : e.once
      · simpa [h, ho] using ih hrest
      · simp only [h, if_true, ho, Bool.false_eq_true, if_false]
        simp only [uniqIdents, List.pairwise_cons]
        exact ⟨fun y hy => by
          simpa [Entry.updateNextNotify] using hkeep y hy, ih hrest⟩
    · simp only [h, if_false]
      simp only [uniqIdents, List.pairwise_cons]
      exact ⟨hkeep, ih hrest⟩

theorem addTimerSubscriber_uniq (st : TimerState) (obs interval param : Nat)
    (once : Bool) (now : Int) (hu : uniqIdents st.subscribers) :
    uniqIdents (addTimerSubscriber st obs interval param once now).1.subscribers := by
  unfold addTimerSubscriber
  by_cases hi : interval = 0
  · simpa [hi] using hu
  · simp only [hi, if_false]
    by_cases hd : st.subscribers.any (fun s => Entry.sameIdentity s
        { subscriber := obs, notifyInterval := interval, parameter := param,
          once := once, nextNotify := now + (interval : Int) })
    · simpa [hd] using hu
    · simp only [hd, Bool.false_eq_true, if_false]
      simp only [List.any_eq_true, not_exists, not_and] at hd
      simp only [uniqIdents, List.pairwise_append]
      refine ⟨hu, List.pairwise_singleton _ _, ?_⟩
      intro a ha b hb hc
      simp only [List.mem_singleton] at hb
      subst hb
      exact hd a ha (by simp [Entry.sameIdentity, hc.1, hc.2])

/-- C8: the registry never holds two entries with the same
`(observer, parameter)` identity: the predicate holds of the empty
registry and is preserved by registration (whatever its outcome),
unregistration (whatever its outcome), and the worker's notify-pass
scan. -/
theorem timer_c8_uniqueness :
    uniqIdents ([] : List Entry)
  ∧ (∀ (st : TimerState) (obs interval param : Nat) (once : Bool) (now : Int),
      uniqIdents st.subscribers →
        uniqIdents (addTimerSubscriber st obs interval param once now).1.subscribers)
  ∧ (∀ (st : TimerState) (obs param : Nat) (dontFail : Bool),
      uniqIdents st.subscribers →
        uniqIdents (removeTimerSubscriber st obs param dontFail).1.subscribers)
  ∧ (∀ (now : Int) (l : List Entry),
      uniqIdents l → uniqIdents (notifyScan now l).2) := by
  refine ⟨List.Pairwise.nil, addTimerSubscriber_uniq, ?_, fun now l => notifyScan_snd_uniq now l⟩
  intro st obs param dontFail hu
  unfold removeTimerSubscriber
  by_cases h : st.subscribers.any (matchesIdentity obs param)
  · simp only [h, if_true]
    exact List.Pairwise.sublist (removeFirstMatch_sublist obs param st.subscribers) hu
  · by_cases hf : dontFail <;> simp [h, hf, hu]

theorem timer_c8_witness :
    uniqIdents ((addTimerSubscriber ⟨[⟨1, 5, 2, false, 5⟩], false, 0⟩ 6 7 8 false 0).1.subscribers)
  ∧ uniqIdents ((removeTimerSubscriber ⟨[⟨1, 5, 2, false, 5⟩], false, 0⟩ 1 2 false).1.subscribers)
  ∧ uniqIdents (notifyScan 9 [⟨1, 5, 2, false, 5⟩, ⟨1, 5, 3, true, 7⟩]).2 :=
  ⟨timer_c8_uniqueness.2.1 ⟨[⟨1, 5, 2, false, 5⟩], false, 0⟩ 6 7 8 false 0 (by decide),
   timer_c8_uniqueness.2.2.1 ⟨[⟨1, 5, 2, false, 5⟩], false, 0⟩ 1 2 false (by decide),
   timer_c8_uniqueness.2.2.2 9 [⟨1, 5, 2, false, 5⟩, ⟨1, 5, 3, true, 7⟩] (by decide)⟩

/-! ## C6 -/

theorem getNextNotifyTime_foldl (l : List Entry) :
    ∀ t : Int, ∃ m,
      l.foldl
        (fun nextTime s =>
          match nextTime with
          | none => some s.nextNotify
          | some u =>
            if getDeltaMillis u s.nextNotify < 0 then some s.nextNotify
            else some u)
        (some t) = some m
      ∧ m ≤ t
      ∧ (∀ e ∈ l, m ≤ e.nextNotify)
      ∧ (m = t ∨ m ∈ l.map Entry.nextNotify) := by
  induction l with
  | nil => exact fun t => ⟨t, rfl, le_refl t, by simp, Or.inl rfl⟩
  | cons e rest ih =>
    intro t
    by_cases h : getDeltaMillis t e.nextNotify < 0
    · have hlt : e.nextNotify < t := by simpa [getDeltaMillis, sub_neg] using h
      obtain ⟨m, hm, hle, hall, hmem⟩ := ih e.nextNotify
      refine ⟨m, ?_, le_trans hle (le_of_lt hlt), ?_, ?_⟩
      · simpa [List.foldl_cons, h] using hm
      · intro x hx
        rcases List.mem_cons.mp hx with hx | hx
        · exact hx ▸ hle
        · exact hall x hx
      · rcases hmem with h1 | h1
        · exact Or.inr (by simp [h1])
        · exact Or.inr (by simp [List.mem_cons]; right; simpa using h1)
    · obtain ⟨m, hm, hle, hall, hmem⟩ := ih t
      have hge : t ≤ e.nextNotify := by
        simpa [getDeltaMillis, sub_neg, not_lt] using h
      refine ⟨m, ?_, hle, ?_, ?_⟩
      · simpa [List.foldl_cons, h] using hm
      · intro x hx
        rcases List.mem_cons.mp hx with hx | hx
        · exact hx ▸ le_trans hle hge
        · exact hall x hx
      · rcases hmem with h1 | h1
        · exact Or.inl h1
        · exact Or.inr (by simp [List.mem_cons]; right; simpa using h1)

/-- C6: on a non-empty registry, `getNextNotifyTime` returns the minimum
`nextNotify` over all entries (it lower-bounds every entry and is
attained by one of them), and when that deadline lies strictly in the
future the worker's decision is to sleep for exactly `deadline - now`
milliseconds. -/
theorem timer_c6_min_deadline (st : TimerState) (now : Int)
    (hne : st.subscribers ≠ []) (hsd : st.shutdownFlag = false) :
    ∃ m, getNextNotifyTime st.subscribers = some m
      ∧ (∀ e ∈ st.subscribers, m ≤ e.nextNotify)
      ∧ m ∈ st.subscribers.map Entry.nextNotify
      ∧ (0 < m - now →
          workerSleepDecision st now = SleepDecision.sleepFor (m - now)) := by
  obtain ⟨e, rest, hcons⟩ := List.exists_cons_of_ne_nil hne
  obtain ⟨m, hm, hle, hall, hmem⟩ := getNextNotifyTime_foldl rest e.nextNotify
  have hget : getNextNotifyTime st.subscribers = some m := by
    rw [hcons]
    unfold getNextNotifyTime
    simpa [List.foldl_cons] using hm
  refine ⟨m, hget, ?_, ?_, ?_⟩
  · intro x hx
    rw [hcons] at hx
    rcases List.mem_cons.mp hx with hx | hx
    · exact hx ▸ hle
    · exact hall x hx
  · rw [hcons]
    rcases hmem with h1 | h1
    · simp [h1]
    · simp [List.mem_cons]; right; simpa using h1
  · intro hpos
    have hempty : st.subscribers.isEmpty = false := by
      rw [hcons]; rfl
    unfold workerSleepDecision
    rw [hsd, hempty, hget]
    simp [getDeltaMillis, hpos]

theorem timer_c6_witness :
    workerSleepDecision ⟨[⟨1, 5, 2, false, 10⟩, ⟨3, 5, 4, false, 7⟩], false, 0⟩ 2
      = SleepDecision.sleepFor 5 := by
  obtain ⟨m, hm, _, _, hs⟩ :=
    timer_c6_min_deadline ⟨[⟨1, 5, 2, false, 10⟩, ⟨3, 5, 4, false, 7⟩], false, 0⟩ 2
      (by decide) rfl
  have h7 : some (7 : Int) = some m := by
    rw [← hm]; decide
  obtain rfl : (7 : Int) = m := Option.some.inj h7
  have := hs (by decide)
  norm_num at this
  exact this

/-! ## C7 -/

/-- C7: when the worker's bounded sleep (a strictly-future deadline was
armed) is ended by a signal rather than by its timeout, the iteration
performs no notify pass: no observer is invoked, the state is left
untouched, and the loop continues to its next iteration, which
re-evaluates shutdown, emptiness and the deadline afresh. -/
theorem timer_c7_interrupted (st : TimerState) (now fireTime m : Int)
    (hsd : st.shutdownFlag = false)
    (hm : getNextNotifyTime st.subscribers = some m)
    (hpos : 0 < m - now) :
    triggerWaitIteration st now fireTime true = (IterResult.interrupted, st, []) := by
  have hempty : st.subscribers.isEmpty = false := by
    cases hsubs : st.subscribers with
    | nil => rw [hsubs] at hm; simp [getNextNotifyTime] at hm
    | cons a l => rfl
  unfold triggerWaitIteration workerSleepDecision
  rw [hsd, hempty, hm]
  simp [getDeltaMillis, hpos]

theorem timer_c7_witness :
    triggerWaitIteration ⟨[⟨1, 5, 2, false, 10⟩], false, 0⟩ 2 11 true
      = (IterResult.interrupted, ⟨[⟨1, 5, 2, false, 10⟩], false, 0⟩, []) :=
  timer_c7_interrupted ⟨[⟨1, 5, 2, false, 10⟩], false, 0⟩ 2 11 10 rfl
    (by decide) (by decide)

/-! ## C9 -/

/-- C9: `shutdown` sets the shutdown flag, signals the wake condition,
and touches nothing else; and any worker iteration that observes the
shutdown flag at the top of the loop exits immediately — no notify pass
runs and no observer is invoked from that point on.  (The source then
`pthread_join`s the worker, so `shutdown()` returns only after the
worker thread has exited.) -/
theorem timer_c9_shutdown (st : TimerState) :
    (shutdown st).shutdownFlag = true
  ∧ (shutdown st).signals = st.signals + 1
  ∧ (shutdown st).subscribers = st.subscribers
  ∧ (∀ (st2 : TimerState) (now fireTime : Int) (wokenEarly : Bool),
      st2.shutdownFlag = true →
        triggerWaitIteration st2 now fireTime wokenEarly
          = (IterResult.exit, st2, [])) := by
  refine ⟨rfl, rfl, rfl, ?_⟩
  intro st2 now fireTime wokenEarly h
  simp [triggerWaitIteration, workerSleepDecision, h]

theorem timer_c9_witness :
    triggerWaitIteration (shutdown ⟨[⟨1, 5, 2, false, 0⟩], false, 0⟩) 3 4 false
      = (IterResult.exit, shutdown ⟨[⟨1, 5, 2, false, 0⟩], false, 0⟩, []) :=
  (timer_c9_shutdown ⟨[⟨1, 5, 2, false, 0⟩], false, 0⟩).2.2.2 _ 3 4 false
    (timer_c9_shutdown ⟨[⟨1, 5, 2, false, 0⟩], false, 0⟩).1

/-! ## C1 -/

/-- The two locks of the component: the registry mutation mutex
(`Timer::mutex`) and the wait mutex of the Wake Protocol
(`Timer::waitMutex`). -/
inductive LockId where
  | registry
  | waitLock
  deriving Repr, DecidableEq

/-- Lock/callback events of a worker trace. -/
inductive Ev where
  | acq (l : LockId)
  | rel (l : LockId)
  | invoke (obs param : Nat)
  deriving Repr, DecidableEq

/-- Which of the two locks the worker currently holds. -/
structure LockSet where
  registry : Bool
  waitLock : Bool
  deriving Repr, DecidableEq

def stepHeld (h : LockSet) : Ev → LockSet
  | .acq .registry => { h with registry := true }
  | .rel .registry => { h with registry := false }
  | .acq .waitLock => { h with waitLock := true }
  | .rel .waitLock => { h with waitLock := false }
  | .invoke _ _ => h

/-- Walk a trace and record, for each observer invocation, the lock set
held by the worker at the moment of that invocation. -/
def invokeHoldSets (h : LockSet) : List Ev → List LockSet
  | [] => []
  | e :: rest =>
    (match e with
     | Ev.invoke _ _ => [h]
     | _ => []) ++ invokeHoldSets (stepHeld h e) rest

/-- The event trace of `Timer::notify` (lines 132–164): lock the
registry mutex, scan (collecting the firing batch), unlock ("Unlock
before we notify so that other threads can modify the subscribers"),
then invoke each batched observer in collection order. -/
def notifyTrace (subs : List Entry) (now : Int) : List Ev :=
  [Ev.acq LockId.registry, Ev.rel LockId.registry]
    ++ (notifyScan now subs).1.map fun e => Ev.invoke e.subscriber e.parameter

/-- The event trace of a `triggerWait` iteration that ends in a notify
pass, from the function entry onward: `triggerWait` acquires `waitMutex`
on entry (line 102) and holds it across the whole loop; the firing
iteration calls `getNextNotifyTime`, which takes and releases the
registry mutex; when the deadline is strictly in the future the worker
sleeps in `cond.wait_for`, which releases `waitMutex` for the duration
of the sleep but reacquires it before returning (`slept` records
whether this bounded sleep happened); then `notify()` runs. -/
def triggerWaitFireTrace (subs : List Entry) (now : Int) (slept : Bool) :
    List Ev :=
  [Ev.acq LockId.waitLock]
    ++ [Ev.acq LockId.registry, Ev.rel LockId.registry]
    ++ (if slept then [Ev.rel LockId.waitLock, Ev.acq LockId.waitLock] else [])
    ++ notifyTrace subs now

/-- The C1 property as the spec states it: at every observer invocation
of the trace, neither the registry lock nor the wait lock is held. -/
def noLocksHeldAtInvokes (t : List Ev) : Bool :=
  (invokeHoldSets ⟨false, false⟩ t).all fun h => !h.registry && !h.waitLock

/-- C1 fails as stated: in the firing iteration for a single due entry
(observer 1, parameter 2, deadline 0, interval 5) at time 0, the
observer is invoked while the worker still holds `waitMutex` — only the
registry mutex is released before the callbacks. -/
theorem timer_c1_counterexample :
    noLocksHeldAtInvokes (triggerWaitFireTrace [⟨1, 5, 2, false, 0⟩] 0 true)
      = false := by
  decide

theorem invokeHoldSets_map_invoke (h : LockSet) (l : List Entry) :
    invokeHoldSets h (l.map fun e => Ev.invoke e.subscriber e.parameter)
      = List.replicate l.length h := by
  induction l with
  | nil => rfl
  | cons e rest ih =>
    simp [invokeHoldSets, stepHeld, ih, List.replicate_succ]

theorem allReplicate (n : Nat) (h : LockSet) (p : LockSet → Bool)
    (hp : p h = true) : (List.replicate n h).all p = true := by
  induction n with
  | zero => rfl
  | succ k ih => simp [List.replicate_succ, ih, hp]

/-- C1 amended: before any observer invocation of a firing iteration the
worker has released the registry mutex, but it still holds the wait
mutex (`waitMutex` is held from `triggerWait`'s entry across the whole
loop, `notify()` included); a callback can nevertheless register or
unregister subscriptions, since those operations take only the registry
mutex. -/
theorem timer_c1_amended (subs : List Entry) (now : Int) (slept : Bool) :
    ((invokeHoldSets ⟨false, false⟩ (triggerWaitFireTrace subs now slept)).all
      fun h => !h.registry && h.waitLock) = true := by
  have hbatch := invokeHoldSets_map_invoke ⟨false, true⟩ (notifyScan now subs).1
  cases slept <;>
  · simp only [triggerWaitFireTrace, notifyTrace, List.append_assoc,
      List.cons_append, List.nil_append, Bool.false_eq_true, if_true, if_false,
      invokeHoldSets, stepHeld, List.append_eq, hbatch]
    apply allReplicate
    rfl
